import Mathlib

/-!
Verification of the agoda_data_pipe repository: a shallow embedding of
`pg_room.py`, `config/sql_config.py` and `config/config_manager.py`.

Database effects are modelled explicitly: a table is the list of its rows,
a failure of a database operation is an oracle (`Bool`, or `Nat → Bool`
indexed by chunk number), and the completion order of the thread pool in
`insert_raw_data_threaded` is an arbitrary permutation of the chunk
indices, so a theorem quantified over `order` holds for every scheduling
and every worker count.
-/

namespace PgRoom

/-- Embedding of `ThreadedDataManager._chunk_data` (pg_room.py line 258):
`return [data[i:i + chunk_size] for i in range(0, len(data), chunk_size)]`.
For `c > 0`, `range(0, n, c)` has `(n + c - 1) / c` elements
`0, c, 2*c, ...`, and the slice `data[i:i + c]` is `(data.drop i).take c`. -/
def chunk_data {α : Type _} (data : List α) (chunk_size : Nat) : List (List α) :=
  (List.range' 0 ((data.length + chunk_size - 1) / chunk_size) chunk_size).map
    fun i => (data.drop i).take chunk_size

theorem chunk_data_nil {α : Type _} (c : Nat) : chunk_data ([] : List α) c = [] := by
  have h0 : (List.length ([] : List α) + c - 1) / c = 0 := by
    rcases Nat.eq_zero_or_pos c with h | h
    · subst h; simp
    · simp only [List.length_nil]
      exact Nat.div_eq_of_lt (by omega)
  unfold chunk_data
  rw [h0]
  rfl

theorem div_count_step (n c : Nat) (hn : 0 < n) (hc : 0 < c) :
    (n + c - 1) / c = (n - c + c - 1) / c + 1 := by
  rcases le_or_lt n c with h | h
  · have h1 : n - c = 0 := Nat.sub_eq_zero_of_le h
    have h2 : n + c - 1 = (n - 1) + c := by omega
    rw [h1, h2, Nat.add_div_right _ hc, Nat.div_eq_of_lt (by omega),
      Nat.div_eq_of_lt (by omega)]
  · have h2 : n + c - 1 = (n - 1) + c := by omega
    have h3 : n - c + c - 1 = (n - c - 1) + c := by omega
    have h4 : n - 1 = (n - c - 1) + c := by omega
    rw [h2, h3, Nat.add_div_right _ hc, Nat.add_div_right _ hc, h4,
      Nat.add_div_right _ hc]

theorem chunk_data_cons {α : Type _} (c : Nat) (hc : 0 < c) (data : List α)
    (hd : data ≠ []) :
    chunk_data data c = data.take c :: chunk_data (data.drop c) c := by
  have hn : 0 < data.length := List.length_pos.mpr hd
  have hcount : (data.length + c - 1) / c = ((data.drop c).length + c - 1) / c + 1 := by
    rw [List.length_drop]
    exact div_count_step data.length c hn hc
  unfold chunk_data
  rw [hcount, List.range'_succ]
  simp only [List.map_cons, List.drop_zero, Nat.zero_add]
  congr 1
  have hshift : List.range' c (((data.drop c).length + c - 1) / c) c
      = (List.range' 0 (((data.drop c).length + c - 1) / c) c).map (c + ·) := by
    rw [List.map_add_range', Nat.add_zero]
  rw [hshift, List.map_map]
  apply List.map_congr_left
  intro i _
  simp only [Function.comp_apply, List.drop_drop]

theorem chunk_data_flatten {α : Type _} (c : Nat) (hc : 0 < c) (data : List α) :
    (chunk_data data c).flatten = data := by
  rcases eq_or_ne data [] with h | h
  · subst h; rw [chunk_data_nil]; rfl
  · rw [chunk_data_cons c hc data h, List.flatten_cons,
      chunk_data_flatten c hc (data.drop c), List.take_append_drop]
termination_by data.length
decreasing_by
  have hpos : 0 < data.length := List.length_pos.mpr h
  simp only [List.length_drop]
  omega

theorem chunk_data_mem_le {α : Type _} (c : Nat) (hc : 0 < c) (data : List α) :
    ∀ l ∈ chunk_data data c, l.length ≤ c ∧ l ≠ [] := by
  rcases eq_or_ne data [] with h | h
  · subst h; rw [chunk_data_nil]; intro l hl; cases hl
  · rw [chunk_data_cons c hc data h]
    intro l hl
    have hpos : 0 < data.length := List.length_pos.mpr h
    rcases List.mem_cons.mp hl with rfl | hl
    · refine ⟨by rw [List.length_take]; omega, ?_⟩
      intro hcon
      have hlen := congrArg List.length hcon
      simp only [List.length_take, List.length_nil] at hlen
      omega
    · exact chunk_data_mem_le c hc (data.drop c) l hl
termination_by data.length
decreasing_by
  simp only [List.length_drop]
  omega

theorem chunk_data_dropLast {α : Type _} (c : Nat) (hc : 0 < c) (data : List α) :
    ∀ l ∈ (chunk_data data c).dropLast, l.length = c := by
  rcases eq_or_ne data [] with h | h
  · subst h; rw [chunk_data_nil]; intro l hl; cases hl
  · rw [chunk_data_cons c hc data h]
    rcases eq_or_ne (data.drop c) [] with h2 | h2
    · rw [h2, chunk_data_nil]
      intro l hl
      cases hl
    · have h3 : chunk_data (data.drop c) c ≠ [] := by
        rw [chunk_data_cons c hc _ h2]
        exact List.cons_ne_nil _ _
      rw [List.dropLast_cons_of_ne_nil h3]
      intro l hl
      rcases List.mem_cons.mp hl with rfl | hl
      · have hlen : c < data.length := by
          by_contra hcon
          exact h2 (List.drop_eq_nil_of_le (by omega))
        rw [List.length_take]
        omega
      · exact chunk_data_dropLast c hc (data.drop c) l hl
termination_by data.length
decreasing_by
  have hpos : 0 < data.length := List.length_pos.mpr h
  simp only [List.length_drop]
  omega

/-- Embedding of `ThreadedDataManager._insert_chunk` (pg_room.py 260-302)
acting on the table state. The guard `if not chunk: return 0` precedes
every database access, so an empty chunk returns 0 and cannot fail. On a
successful `execute_batch` plus commit the chunk rows are appended and
`some chunk.length` is returned; a raised exception rolls the transaction
back (table unchanged) and is re-raised, modelled as `none`. `batch_size`
only sets the `page_size` of `execute_batch` inside the one transaction
and does not affect the result. -/
def insert_chunk {α : Type _} (fail : Bool) (table chunk : List α) :
    List α × Option Nat :=
  if chunk.isEmpty then (table, some 0)
  else if fail then (table, none)
  else (table ++ chunk, some chunk.length)

/-- The future-consumption loop of `insert_raw_data_threaded` (pg_room.py
331-352). `order` is the completion order produced by `as_completed`, an
arbitrary permutation of the chunk indices; `fail i` says whether the
insert of chunk `i` raises. On the first observed failure the Python
function returns `False`, but every chunk was already submitted to the
executor and still runs to completion (the `with ThreadPoolExecutor` block
joins all futures on exit), so the fold keeps applying the table effects
of the remaining chunks while the accumulating `total_inserted` stops.
Result: (final table, overall boolean result, total_inserted). -/
def run_completed {α : Type _} (fail : Nat → Bool) (chunks : List (List α)) :
    List Nat → List α → List α × Bool × Nat
  | [], table => (table, true, 0)
  | i :: rest, table =>
    match insert_chunk (fail i) table (chunks.getD i []) with
    | (t, some k) =>
      let r := run_completed fail chunks rest t
      (r.1, r.2.1, k + r.2.2)
    | (t, none) =>
      let r := run_completed fail chunks rest t
      (r.1, false, 0)

/-- Embedding of `ThreadedDataManager.insert_raw_data_threaded`
(pg_room.py 304-357): an empty record list returns `True` with no
database access; otherwise the list is chunked with `_chunk_data` and
every chunk is submitted to the pool, whose completion order is `order`.
Result: (final table, boolean result). -/
def insert_raw_data_threaded {α : Type _} (fail : Nat → Bool) (order : List Nat)
    (table room_list : List α) (chunk_size : Nat) : List α × Bool :=
  if room_list.isEmpty then (table, true)
  else
    let r := run_completed fail (chunk_data room_list chunk_size) order table
    (r.1, r.2.1)

/-- Embedding of `DataManager.insert_raw_data` (pg_room.py 369-414): an
empty record list returns `True` with no database access; otherwise one
`execute_batch` call inside a single transaction inserts all rows: on
success all rows are appended and `True` returned, on any exception the
context manager rolls the transaction back (table unchanged) and the
`except` clause returns `False`. -/
def insert_raw_data {α : Type _} (fail : Bool) (table room_list : List α) :
    List α × Bool :=
  if room_list.isEmpty then (table, true)
  else if fail then (table, false)
  else (table ++ room_list, true)

theorem insert_chunk_nil {α : Type _} (f : Bool) (table : List α) :
    insert_chunk f table [] = (table, some 0) := rfl

theorem insert_chunk_of_fail {α : Type _} (table chunk : List α)
    (h : chunk ≠ []) : insert_chunk true table chunk = (table, none) := by
  simp [insert_chunk, h]

theorem insert_chunk_of_ok {α : Type _} (table chunk : List α)
    (h : chunk ≠ []) :
    insert_chunk false table chunk = (table ++ chunk, some chunk.length) := by
  simp [insert_chunk, h]

theorem run_completed_success {α : Type _} (fail : Nat → Bool)
    (chunks : List (List α)) (order : List Nat) (table : List α)
    (h : ∀ i ∈ order, fail i = false) :
    run_completed fail chunks order table =
      (table ++ (order.map fun i => chunks.getD i []).flatten, true,
       (order.map fun i => (chunks.getD i []).length).sum) := by
  induction order generalizing table with
  | nil => simp [run_completed]
  | cons j rest ih =>
    have hj : fail j = false := h j (List.mem_cons_self j rest)
    have hrest : ∀ i ∈ rest, fail i = false :=
      fun i hi => h i (List.mem_cons_of_mem _ hi)
    simp only [run_completed, hj, List.map_cons, List.flatten_cons,
      List.sum_cons]
    rcases eq_or_ne (chunks.getD j []) [] with hch | hch
    · rw [hch, insert_chunk_nil]
      simp only [ih table hrest, List.length_nil, List.nil_append,
        Nat.zero_add]
    · rw [insert_chunk_of_ok table _ hch]
      simp only [ih (table ++ chunks.getD j []) hrest, List.append_assoc]

theorem run_completed_fail {α : Type _} (fail : Nat → Bool)
    (chunks : List (List α)) (order : List Nat) (i : Nat) (hi : i ∈ order)
    (hf : fail i = true) (hne : chunks.getD i [] ≠ []) (table : List α) :
    (run_completed fail chunks order table).2.1 = false := by
  induction order generalizing table with
  | nil => cases hi
  | cons j rest ih =>
    simp only [run_completed]
    rcases List.mem_cons.mp hi with rfl | hmem
    · rw [hf, insert_chunk_of_fail table _ hne]
    · rcases eq_or_ne (chunks.getD j []) [] with hch | hch
      · rw [hch, insert_chunk_nil]
        exact ih hmem table
      · cases hfj : fail j with
        | true => rw [insert_chunk_of_fail table _ hch]
        | false =>
          rw [insert_chunk_of_ok table _ hch]
          exact ih hmem (table ++ chunks.getD j [])

theorem map_getD_range {β : Type _} (l : List β) (d : β) :
    (List.range l.length).map (fun i => l.getD i d) = l := by
  induction l with
  | nil => rfl
  | cons x xs ih =>
    rw [List.length_cons, List.range_succ_eq_map, List.map_cons, List.map_map]
    have hcomp : ((fun i => (x :: xs).getD i d) ∘ Nat.succ)
        = fun i => xs.getD i d := by
      funext i
      simp [List.getD_cons_succ]
    rw [hcomp, ih]
    simp [List.getD_cons_zero]

theorem perm_sum_lengths {α : Type _} (chunks : List (List α))
    (order : List Nat) (hperm : order.Perm (List.range chunks.length)) :
    (order.map fun i => (chunks.getD i []).length).sum
      = chunks.flatten.length := by
  have h1 : (order.map fun i => (chunks.getD i []).length).Perm
      ((List.range chunks.length).map fun i => (chunks.getD i []).length) :=
    hperm.map _
  rw [h1.sum_eq, List.length_flatten]
  have h2 : ((List.range chunks.length).map fun i => (chunks.getD i []).length)
      = ((List.range chunks.length).map (fun i => chunks.getD i [])).map
          List.length := by
    rw [List.map_map]
    rfl
  rw [h2, map_getD_range chunks []]

/-- Embedding of `TableManager.create_table` (pg_room.py 145-235). The
database state is the list of existing table names. The executed DDL is
`CREATE TABLE IF NOT EXISTS <name> ...` followed by COMMENT statements
and one commit, so under PostgreSQL semantics a successful call adds the
table exactly when it is absent and is a no-op otherwise. `conn_fail`
models any raised exception (connection failure, DDL error): nothing is
committed, PostgreSQL transactional DDL is rolled back by the context
manager, and the `except` clause returns `False` instead of re-raising,
so the caller always receives a boolean. -/
def create_table (conn_fail : Bool) (db : List String) (table_name : String) :
    List String × Bool :=
  if conn_fail then (db, false)
  else if table_name ∈ db then (db, true)
  else (db ++ [table_name], true)

/-- Connection lifecycle events of the two `get_connection` context
managers: `acquire` is `getconn` or `psycopg2.connect`, `release` is
`putconn` or `close`. -/
inductive ConnEvent where
  | acquire
  | rollback
  | release
deriving DecidableEq

namespace ConnectionPoolManager

/-- Embedding of `ConnectionPoolManager.get_connection` (pg_room.py
57-79) as the trace of connection events it performs. `acquire_fails`
models `getconn` raising (`conn` stays `None`, so neither the `except`
rollback nor the `finally` release runs); `body_fails` models the code
inside the `with` block raising, in which case the connection is rolled
back in the `except` clause and then returned to the pool in `finally`,
and the exception is re-raised. The boolean is `true` iff no exception
propagates to the caller. -/
def get_connection (acquire_fails body_fails : Bool) :
    List ConnEvent × Bool :=
  if acquire_fails then ([], false)
  else if body_fails then
    ([ConnEvent.acquire, ConnEvent.rollback, ConnEvent.release], false)
  else ([ConnEvent.acquire, ConnEvent.release], true)

end ConnectionPoolManager

namespace DatabaseManager

/-- Embedding of `DatabaseManager.get_connection` (pg_room.py 111-133),
the single-connection mode: identical control flow to the pooled
version, with `psycopg2.connect` as `acquire` and `close` as `release`. -/
def get_connection (acquire_fails body_fails : Bool) :
    List ConnEvent × Bool :=
  if acquire_fails then ([], false)
  else if body_fails then
    ([ConnEvent.acquire, ConnEvent.rollback, ConnEvent.release], false)
  else ([ConnEvent.acquire, ConnEvent.release], true)

end DatabaseManager

end PgRoom

namespace SqlConfig

/-- The part of the parsed YAML configuration that `sql_config.py` reads:
the `environment.current` entry (an absent key is `none`) and the
`database` section, an association list from environment name to a
database configuration of the opaque type `δ`. -/
structure Config (δ : Type _) where
  environment_current : Option String
  database : List (String × δ)
deriving DecidableEq

/-- State of a `DatabaseConfigLoader`: the `_config_cache` field and the
number of file reads performed so far. The file contents are an oracle
`file : Nat → Config δ` from the index of a read to the configuration it
yields, so caching is observable even when the file changes between
reads. The oracle models successful parses; the `DatabaseConfigError`
cases raised by `_load_yaml_config` for a missing or malformed file are
outside the claims about caching and lookup. -/
structure LoaderState (δ : Type _) where
  cache : Option (Config δ)
  reads : Nat
deriving DecidableEq

/-- Embedding of `DatabaseConfigLoader.get_config` (sql_config.py 62-68):
reload from the file iff the cache is `None` or `force_reload` is set,
otherwise return the cached object unchanged; each reload is one file
read. Returns the configuration and the new loader state. -/
def get_config {δ : Type _} (file : Nat → Config δ) (s : LoaderState δ)
    (force_reload : Bool) : Config δ × LoaderState δ :=
  match s.cache, force_reload with
  | some c, false => (c, s)
  | _, _ =>
    let c := file s.reads
    (c, ⟨some c, s.reads + 1⟩)

/-- The error type of sql_config.py, restricted to the lookup failure the
claims exercise. -/
inductive DatabaseConfigError where
  | environmentNotFound (env : String)
deriving DecidableEq

/-- Embedding of `DatabaseConfigLoader.get_current_environment`
(sql_config.py 70-80): a missing `environment.current` key raises
`KeyError`, which is caught to return the default `development`. -/
def get_current_environment {δ : Type _} (file : Nat → Config δ)
    (s : LoaderState δ) : String × LoaderState δ :=
  let r := get_config file s false
  (r.1.environment_current.getD "development", r.2)

/-- Embedding of `DatabaseConfigLoader.get_database_config`
(sql_config.py 82-95): load (or fetch from cache) the configuration,
resolve the environment (explicit argument, else the current one), and
look it up in the database section; a missing key raises
`DatabaseConfigError`, modelled as `Except.error`. -/
def get_database_config {δ : Type _} (file : Nat → Config δ)
    (s : LoaderState δ) (environment : Option String) :
    Except DatabaseConfigError δ × LoaderState δ :=
  let r := get_config file s false
  let e := match environment with
    | some env => (env, r.2)
    | none => get_current_environment file r.2
  ((match r.1.database.lookup e.1 with
    | some db => Except.ok db
    | none => Except.error (DatabaseConfigError.environmentNotFound e.1)),
   e.2)

/-- Embedding of the module-level `load_config` (sql_config.py 102-119):
delegates to `get_database_config` on the global loader; its `except`
clause only logs and re-raises, so the outcome is unchanged. -/
def load_config {δ : Type _} (file : Nat → Config δ) (s : LoaderState δ)
    (environment : Option String) :
    Except DatabaseConfigError δ × LoaderState δ :=
  get_database_config file s environment

/-- Embedding of the module-level `reload_config` (sql_config.py
132-137): `get_config(force_reload=True)` on the global loader,
discarding the returned configuration. -/
def reload_config {δ : Type _} (file : Nat → Config δ)
    (s : LoaderState δ) : LoaderState δ :=
  (get_config file s true).2

theorem get_config_stable {δ : Type _} (file : Nat → Config δ)
    (s : LoaderState δ) :
    get_config file (get_config file s false).2 false
      = get_config file s false := by
  cases hs : s.cache <;> simp [get_config, hs]

end SqlConfig

namespace ConfigManager

/-- The `app.threading` mapping of config.yml as read by
`ConfigManager.get_threading_config`; each key may be absent, matching
`dict.get` semantics. -/
structure ThreadingDict where
  max_workers : Option Nat
  chunk_size : Option Nat
  enable_threading : Option Bool
deriving DecidableEq

/-- The `app` section of config.yml; only the keys the claims touch are
modelled, each possibly absent. -/
structure AppDict where
  batch_size : Option Nat
  threading : Option ThreadingDict
deriving DecidableEq

/-- The configuration as read by `config_manager.py`; the `app` section
itself may be absent. -/
structure ManagerConfig where
  app : Option AppDict
deriving DecidableEq

/-- The default threading dictionary of `get_threading_config`
(config_manager.py 87-109): max_workers 4, chunk_size 1000, threading
disabled. -/
def default_threading : ThreadingDict :=
  ⟨some 4, some 1000, some false⟩

/-- Embedding of `ConfigManager.get_batch_size` (config_manager.py
62-70): `config.get(app, empty).get(batch_size, 100)`. -/
def get_batch_size (c : ManagerConfig) : Nat :=
  match c.app with
  | none => 100
  | some a => a.batch_size.getD 100

/-- Embedding of `ConfigManager.get_threading_config` (config_manager.py
87-109): the default dictionary is returned exactly when `app` or
`app.threading` is absent. -/
def get_threading_config (c : ManagerConfig) : ThreadingDict :=
  match c.app with
  | none => default_threading
  | some a => a.threading.getD default_threading

/-- Embedding of `ConfigManager.is_threading_enabled` (config_manager.py
111-118): `get_threading_config().get(enable_threading, False)`. -/
def is_threading_enabled (c : ManagerConfig) : Bool :=
  (get_threading_config c).enable_threading.getD false

end ConfigManager

namespace PgRoom

theorem getD_mem_of_lt {β : Type _} (l : List β) (i : Nat) (d : β)
    (h : i < l.length) : l.getD i d ∈ l := by
  rw [List.getD_eq_getElem?_getD, List.getElem?_eq_getElem h]
  exact List.getElem_mem h

theorem index_lt_of_perm_range {β : Type _} (chunks : List β)
    (order : List Nat) (hperm : order.Perm (List.range chunks.length))
    (i : Nat) (hi : i ∈ order) : i < chunks.length :=
  List.mem_range.mp (hperm.mem_iff.mp hi)

theorem insert_raw_data_threaded_of_ne_nil {α : Type _} (fail : Nat → Bool)
    (order : List Nat) (table : List α) (data : List α) (c : Nat)
    (h : data ≠ []) :
    insert_raw_data_threaded fail order table data c
      = ((run_completed fail (chunk_data data c) order table).1,
         (run_completed fail (chunk_data data c) order table).2.1) := by
  unfold insert_raw_data_threaded
  rw [if_neg]
  simp [h]

end PgRoom

/-- C1: for every record list and every chunk size C > 0, `_chunk_data`
splits the list into contiguous chunks whose concatenation equals the
input (each chunk has exactly C records except possibly the last, which
is never longer than C), and when every chunk insert succeeds the total
inserted count accumulated by `insert_raw_data_threaded` (the sum of the
per-chunk counts returned by `_insert_chunk`) equals the number of input
records, for every completion order of the futures and hence for every
worker count W. -/
theorem claim_c1_chunking_and_total_count {α : Type _} (data : List α)
    (c : Nat) (hc : 0 < c) (fail : Nat → Bool) (order : List Nat)
    (table : List α)
    (hperm : order.Perm (List.range (PgRoom.chunk_data data c).length))
    (hfail : ∀ i ∈ order, fail i = false) :
    (PgRoom.chunk_data data c).flatten = data
    ∧ (∀ l ∈ (PgRoom.chunk_data data c).dropLast, l.length = c)
    ∧ (∀ l ∈ PgRoom.chunk_data data c, l.length ≤ c)
    ∧ (PgRoom.run_completed fail (PgRoom.chunk_data data c) order table).2.2
        = data.length
    ∧ (PgRoom.insert_raw_data_threaded fail order table data c).2 = true := by
  have hflat := PgRoom.chunk_data_flatten c hc data
  have hrun := PgRoom.run_completed_success fail (PgRoom.chunk_data data c)
    order table hfail
  refine ⟨hflat, PgRoom.chunk_data_dropLast c hc data,
    fun l hl => (PgRoom.chunk_data_mem_le c hc data l hl).1, ?_, ?_⟩
  · rw [hrun]
    show (order.map fun i => ((PgRoom.chunk_data data c).getD i []).length).sum
        = data.length
    rw [PgRoom.perm_sum_lengths _ order hperm, hflat]
  · rcases eq_or_ne data [] with h | h
    · subst h; rfl
    · rw [PgRoom.insert_raw_data_threaded_of_ne_nil fail order table data c h,
        hrun]

/-- Witness for C1: five records, chunk size 2, three chunks completing
in the order 1, 2, 0, no failures. -/
theorem claim_c1_witness :
    (PgRoom.chunk_data [10, 11, 12, 13, 14] 2).flatten = [10, 11, 12, 13, 14]
    ∧ (∀ l ∈ (PgRoom.chunk_data [10, 11, 12, 13, 14] 2).dropLast, l.length = 2)
    ∧ (∀ l ∈ PgRoom.chunk_data [10, 11, 12, 13, 14] 2, l.length ≤ 2)
    ∧ (PgRoom.run_completed (fun _ => false)
        (PgRoom.chunk_data [10, 11, 12, 13, 14] 2) [1, 2, 0] []).2.2 = 5
    ∧ (PgRoom.insert_raw_data_threaded (fun _ => false) [1, 2, 0] []
        [10, 11, 12, 13, 14] 2).2 = true :=
  claim_c1_chunking_and_total_count [10, 11, 12, 13, 14] 2 (by decide)
    (fun _ => false) [1, 2, 0] [] (by decide) (by decide)

/-- C2: when the insert of any single chunk raises, the threaded insert
reports overall failure (`false`) whatever the completion order and
however many other chunks succeed; table creation and the sequential
insert likewise report failure as a boolean result rather than a
propagated exception. -/
theorem claim_c2_failure_reported_as_false {α : Type _} (data : List α)
    (c : Nat) (hc : 0 < c) (fail : Nat → Bool) (order : List Nat)
    (table : List α) (i : Nat)
    (hperm : order.Perm (List.range (PgRoom.chunk_data data c).length))
    (hi : i ∈ order) (hf : fail i = true) :
    (PgRoom.insert_raw_data_threaded fail order table data c).2 = false
    ∧ (∀ (db : List String) (t : String),
        PgRoom.create_table true db t = (db, false))
    ∧ (∀ (t rows : List α), rows ≠ [] →
        PgRoom.insert_raw_data true t rows = (t, false)) := by
  have hlt : i < (PgRoom.chunk_data data c).length :=
    PgRoom.index_lt_of_perm_range _ order hperm i hi
  have hdata : data ≠ [] := by
    intro hcon
    rw [hcon, PgRoom.chunk_data_nil] at hlt
    exact absurd hlt (by simp)
  have hmem : (PgRoom.chunk_data data c).getD i [] ∈ PgRoom.chunk_data data c :=
    PgRoom.getD_mem_of_lt _ i [] hlt
  have hne : (PgRoom.chunk_data data c).getD i [] ≠ [] :=
    (PgRoom.chunk_data_mem_le c hc data _ hmem).2
  refine ⟨?_, fun db t => rfl, fun t rows hr => ?_⟩
  · rw [PgRoom.insert_raw_data_threaded_of_ne_nil fail order table data c hdata]
    exact PgRoom.run_completed_fail fail _ order i hi hf hne table
  · unfold PgRoom.insert_raw_data
    rw [if_neg (by simp [hr]), if_pos rfl]

/-- Witness for C2: three records, chunk size 2, the insert of chunk 1
(the chunk [12]) raises while chunk 0 succeeds, completion order 1, 0. -/
theorem claim_c2_witness :
    (PgRoom.insert_raw_data_threaded (fun i => i == 1) [1, 0] []
        [10, 11, 12] 2).2 = false
    ∧ (∀ (db : List String) (t : String),
        PgRoom.create_table true db t = (db, false))
    ∧ (∀ (t rows : List Nat), rows ≠ [] →
        PgRoom.insert_raw_data true t rows = (t, false)) :=
  claim_c2_failure_reported_as_false [10, 11, 12] 2 (by decide)
    (fun i => i == 1) [1, 0] [] 1 (by decide) (by decide) (by decide)

/-- C3: for identical input records, an identical initial table and a
chunk size C > 0, the sequential path and the threaded path (under every
completion order) both succeed when no operation fails, and the final
tables have the same row count. -/
theorem claim_c3_sequential_parallel_same_row_count {α : Type _}
    (init data : List α) (c : Nat) (hc : 0 < c) (fail : Nat → Bool)
    (order : List Nat)
    (hperm : order.Perm (List.range (PgRoom.chunk_data data c).length))
    (hfail : ∀ i ∈ order, fail i = false) :
    (PgRoom.insert_raw_data false init data).2 = true
    ∧ (PgRoom.insert_raw_data_threaded fail order init data c).2 = true
    ∧ (PgRoom.insert_raw_data_threaded fail order init data c).1.length
        = (PgRoom.insert_raw_data false init data).1.length
    ∧ (PgRoom.insert_raw_data false init data).1.length
        = init.length + data.length := by
  have hrun := PgRoom.run_completed_success fail (PgRoom.chunk_data data c)
    order init hfail
  have hlen : ((order.map fun i => (PgRoom.chunk_data data c).getD i []).flatten).length
      = data.length := by
    rw [List.length_flatten, List.map_map]
    show (order.map fun i => ((PgRoom.chunk_data data c).getD i []).length).sum
        = data.length
    rw [PgRoom.perm_sum_lengths _ order hperm,
      PgRoom.chunk_data_flatten c hc data]
  rcases eq_or_ne data [] with h | h
  · subst h
    exact ⟨rfl, rfl, rfl, rfl⟩
  · have hseq : PgRoom.insert_raw_data false init data = (init ++ data, true) := by
      unfold PgRoom.insert_raw_data
      rw [if_neg (by simp [h]), if_neg (by simp)]
    rw [PgRoom.insert_raw_data_threaded_of_ne_nil fail order init data c h,
      hrun, hseq]
    refine ⟨rfl, rfl, ?_, List.length_append _ _⟩
    show (init ++ (order.map fun i => (PgRoom.chunk_data data c).getD i []).flatten).length
        = (init ++ data).length
    rw [List.length_append, List.length_append, hlen]

/-- Witness for C3: initial table with one row, four records, chunk size
3, completion order 1, 0, no failures. -/
theorem claim_c3_witness :
    (PgRoom.insert_raw_data false [99] [10, 11, 12, 13]).2 = true
    ∧ (PgRoom.insert_raw_data_threaded (fun _ => false) [1, 0] [99]
        [10, 11, 12, 13] 3).2 = true
    ∧ (PgRoom.insert_raw_data_threaded (fun _ => false) [1, 0] [99]
        [10, 11, 12, 13] 3).1.length
        = (PgRoom.insert_raw_data false [99] [10, 11, 12, 13]).1.length
    ∧ (PgRoom.insert_raw_data false [99] [10, 11, 12, 13]).1.length = 1 + 4 :=
  claim_c3_sequential_parallel_same_row_count [99] [10, 11, 12, 13] 3
    (by decide) (fun _ => false) [1, 0] (by decide) (by decide)

theorem load_config_stable {δ : Type _} (file : Nat → SqlConfig.Config δ)
    (s : SqlConfig.LoaderState δ) (environment : Option String) :
    SqlConfig.load_config file (SqlConfig.load_config file s environment).2
        environment
      = SqlConfig.load_config file s environment := by
  unfold SqlConfig.load_config SqlConfig.get_database_config
    SqlConfig.get_current_environment
  cases hs : s.cache <;> cases environment <;>
    simp [SqlConfig.get_config, hs]

/-- C4: starting from an empty cache, the first `get_config` call reads
the file once; a second call without `force_reload` returns the identical
configuration object and state, performing no second file read; calling
with `force_reload` (and `reload_config`) discards the cache and reads
the file again. `load_config` inherits the caching: repeating it changes
nothing. -/
theorem claim_c4_config_cache {δ : Type _} (file : Nat → SqlConfig.Config δ)
    (s : SqlConfig.LoaderState δ) (environment : Option String)
    (h : s.cache = none) :
    (SqlConfig.get_config file s false).2.reads = s.reads + 1
    ∧ SqlConfig.get_config file (SqlConfig.get_config file s false).2 false
        = SqlConfig.get_config file s false
    ∧ SqlConfig.get_config file (SqlConfig.get_config file s false).2 true
        = (file (s.reads + 1), ⟨some (file (s.reads + 1)), s.reads + 2⟩)
    ∧ SqlConfig.reload_config file (SqlConfig.get_config file s false).2
        = ⟨some (file (s.reads + 1)), s.reads + 2⟩
    ∧ SqlConfig.load_config file
        (SqlConfig.load_config file s environment).2 environment
        = SqlConfig.load_config file s environment := by
  refine ⟨?_, ?_, ?_, ?_, load_config_stable file s environment⟩ <;>
    simp [SqlConfig.get_config, SqlConfig.reload_config, h]

/-- Witness for C4: a file oracle whose content changes with every read,
an empty cache, the explicit environment `development`. -/
theorem claim_c4_witness :
    (SqlConfig.get_config (fun n => ⟨none, [("development", n)]⟩)
        (⟨none, 0⟩ : SqlConfig.LoaderState Nat) false).2.reads = 0 + 1
    ∧ SqlConfig.get_config (fun n => ⟨none, [("development", n)]⟩)
        (SqlConfig.get_config (fun n => ⟨none, [("development", n)]⟩)
          (⟨none, 0⟩ : SqlConfig.LoaderState Nat) false).2 false
        = SqlConfig.get_config (fun n => ⟨none, [("development", n)]⟩)
          (⟨none, 0⟩ : SqlConfig.LoaderState Nat) false
    ∧ SqlConfig.get_config (fun n => ⟨none, [("development", n)]⟩)
        (SqlConfig.get_config (fun n => ⟨none, [("development", n)]⟩)
          (⟨none, 0⟩ : SqlConfig.LoaderState Nat) false).2 true
        = (⟨none, [("development", 0 + 1)]⟩, ⟨some ⟨none, [("development", 0 + 1)]⟩, 0 + 2⟩)
    ∧ SqlConfig.reload_config (fun n => ⟨none, [("development", n)]⟩)
        (SqlConfig.get_config (fun n => ⟨none, [("development", n)]⟩)
          (⟨none, 0⟩ : SqlConfig.LoaderState Nat) false).2
        = ⟨some ⟨none, [("development", 0 + 1)]⟩, 0 + 2⟩
    ∧ SqlConfig.load_config (fun n => ⟨none, [("development", n)]⟩)
        (SqlConfig.load_config (fun n => ⟨none, [("development", n)]⟩)
          (⟨none, 0⟩ : SqlConfig.LoaderState Nat) (some "development")).2
        (some "development")
        = SqlConfig.load_config (fun n => ⟨none, [("development", n)]⟩)
          (⟨none, 0⟩ : SqlConfig.LoaderState Nat) (some "development") :=
  claim_c4_config_cache (fun n => ⟨none, [("development", n)]⟩)
    (⟨none, 0⟩ : SqlConfig.LoaderState Nat) (some "development") rfl

/-- C5: for every environment name absent from the database section of
the loaded configuration, `get_database_config` (and hence `load_config`)
yields the environment-not-found `DatabaseConfigError` rather than a
configuration. -/
theorem claim_c5_unknown_environment_error {δ : Type _}
    (file : Nat → SqlConfig.Config δ) (s : SqlConfig.LoaderState δ)
    (env : String)
    (h : ((SqlConfig.get_config file s false).1).database.lookup env = none) :
    (SqlConfig.get_database_config file s (some env)).1
        = Except.error (SqlConfig.DatabaseConfigError.environmentNotFound env)
    ∧ (SqlConfig.load_config file s (some env)).1
        = Except.error (SqlConfig.DatabaseConfigError.environmentNotFound env) := by
  have hmain : (SqlConfig.get_database_config file s (some env)).1
      = Except.error (SqlConfig.DatabaseConfigError.environmentNotFound env) := by
    unfold SqlConfig.get_database_config
    simp [h]
  exact ⟨hmain, hmain⟩

/-- Witness for C5: a configuration that only knows the `development`
environment, queried for `staging`. -/
theorem claim_c5_witness :
    (SqlConfig.get_database_config (fun _ => ⟨some "production", [("development", 1)]⟩)
        (⟨none, 0⟩ : SqlConfig.LoaderState Nat) (some "staging")).1
        = Except.error (SqlConfig.DatabaseConfigError.environmentNotFound "staging")
    ∧ (SqlConfig.load_config (fun _ => ⟨some "production", [("development", 1)]⟩)
        (⟨none, 0⟩ : SqlConfig.LoaderState Nat) (some "staging")).1
        = Except.error (SqlConfig.DatabaseConfigError.environmentNotFound "staging") :=
  claim_c5_unknown_environment_error
    (fun _ => ⟨some "production", [("development", 1)]⟩)
    (⟨none, 0⟩ : SqlConfig.LoaderState Nat) "staging" (by decide)

/-- C6: `create_table` is idempotent: after a first successful call for a
table that did not exist, a second call finds the table, its
create-if-not-absent DDL leaves the database unchanged with exactly one
table of that name, and it returns `True`. -/
theorem claim_c6_create_table_idempotent (db : List String) (t : String)
    (h : t ∉ db) :
    (PgRoom.create_table false db t).2 = true
    ∧ PgRoom.create_table false (PgRoom.create_table false db t).1 t
        = ((PgRoom.create_table false db t).1, true)
    ∧ ((PgRoom.create_table false db t).1).count t = 1 := by
  have hfirst : PgRoom.create_table false db t = (db ++ [t], true) := by
    unfold PgRoom.create_table
    rw [if_neg (by simp), if_neg h]
  rw [hfirst]
  refine ⟨rfl, ?_, ?_⟩
  · unfold PgRoom.create_table
    rw [if_neg (by simp), if_pos (by simp)]
  · rw [List.count_append, List.count_eq_zero.mpr h, List.count_singleton_self]

/-- Witness for C6: creating `agoda_rooms` twice in a database that
starts with one other table. -/
theorem claim_c6_witness :
    (PgRoom.create_table false ["other_table"] "agoda_rooms").2 = true
    ∧ PgRoom.create_table false
        (PgRoom.create_table false ["other_table"] "agoda_rooms").1 "agoda_rooms"
        = ((PgRoom.create_table false ["other_table"] "agoda_rooms").1, true)
    ∧ ((PgRoom.create_table false ["other_table"] "agoda_rooms").1).count
        "agoda_rooms" = 1 :=
  claim_c6_create_table_idempotent ["other_table"] "agoda_rooms" (by decide)

/-- C7: in both connection context managers, an exception raised by the
body after a connection was obtained produces the trace acquire,
rollback, release — the rollback strictly before the connection is
returned to the pool or closed — and the exception is re-raised (second
component `false`); the no-exception path releases the connection with no
rollback. -/
theorem claim_c7_rollback_before_release (aF bF : Bool) (haF : aF = false) :
    (bF = true →
      PgRoom.ConnectionPoolManager.get_connection aF bF
        = ([PgRoom.ConnEvent.acquire, PgRoom.ConnEvent.rollback,
            PgRoom.ConnEvent.release], false)
      ∧ PgRoom.DatabaseManager.get_connection aF bF
        = ([PgRoom.ConnEvent.acquire, PgRoom.ConnEvent.rollback,
            PgRoom.ConnEvent.release], false))
    ∧ (bF = false →
      PgRoom.ConnectionPoolManager.get_connection aF bF
        = ([PgRoom.ConnEvent.acquire, PgRoom.ConnEvent.release], true)
      ∧ PgRoom.DatabaseManager.get_connection aF bF
        = ([PgRoom.ConnEvent.acquire, PgRoom.ConnEvent.release], true)) := by
  subst haF
  cases bF <;>
    simp [PgRoom.ConnectionPoolManager.get_connection,
      PgRoom.DatabaseManager.get_connection]

/-- Witness for C7: successful acquire, failing body. -/
theorem claim_c7_witness :
    PgRoom.ConnectionPoolManager.get_connection false true
      = ([PgRoom.ConnEvent.acquire, PgRoom.ConnEvent.rollback,
          PgRoom.ConnEvent.release], false)
    ∧ PgRoom.DatabaseManager.get_connection false true
      = ([PgRoom.ConnEvent.acquire, PgRoom.ConnEvent.rollback,
          PgRoom.ConnEvent.release], false) :=
  (claim_c7_rollback_before_release false true rfl).1 rfl

/-- C8: on the empty record list both insert paths return `True` and
leave the table unchanged, for every failure oracle and completion order
— in the model no database effect at all can occur, matching the early
return before any connection is acquired. -/
theorem claim_c8_empty_list_noop {α : Type _} (seq_fail : Bool)
    (fail : Nat → Bool) (order : List Nat) (table : List α) (c : Nat) :
    PgRoom.insert_raw_data seq_fail table ([] : List α) = (table, true)
    ∧ PgRoom.insert_raw_data_threaded fail order table ([] : List α) c
        = (table, true) :=
  ⟨rfl, rfl⟩

/-- C9: when the loaded configuration has no `environment.current` entry,
`get_current_environment` returns the default `development` instead of
raising, and `load_config` with no explicit environment argument then
looks up the `development` database configuration. -/
theorem claim_c9_default_environment {δ : Type _}
    (file : Nat → SqlConfig.Config δ) (s : SqlConfig.LoaderState δ)
    (h : ((SqlConfig.get_config file s false).1).environment_current = none) :
    (SqlConfig.get_current_environment file s).1 = "development"
    ∧ (SqlConfig.load_config file s none).1
        = (match ((SqlConfig.get_config file s false).1).database.lookup
              "development" with
           | some db => Except.ok db
           | none => Except.error
              (SqlConfig.DatabaseConfigError.environmentNotFound
                "development")) := by
  constructor
  · simp only [SqlConfig.get_current_environment, h]
    rfl
  · unfold SqlConfig.load_config SqlConfig.get_database_config
      SqlConfig.get_current_environment
    simp only [SqlConfig.get_config_stable file s, h]
    rfl

/-- Witness for C9: a configuration without an `environment.current`
entry whose database section knows only `development`. -/
theorem claim_c9_witness :
    (SqlConfig.get_current_environment (fun _ => ⟨none, [("development", 42)]⟩)
        (⟨none, 0⟩ : SqlConfig.LoaderState Nat)).1 = "development"
    ∧ (SqlConfig.load_config (fun _ => ⟨none, [("development", 42)]⟩)
        (⟨none, 0⟩ : SqlConfig.LoaderState Nat) none).1
        = (match ((SqlConfig.get_config (fun _ => ⟨none, [("development", 42)]⟩)
              (⟨none, 0⟩ : SqlConfig.LoaderState Nat) false).1).database.lookup
              "development" with
           | some db => Except.ok db
           | none => Except.error
              (SqlConfig.DatabaseConfigError.environmentNotFound
                "development")) :=
  claim_c9_default_environment (fun _ => ⟨none, [("development", 42)]⟩)
    (⟨none, 0⟩ : SqlConfig.LoaderState Nat) rfl

/-- C10: when the `app` section or the relevant sub-key is absent, the
`ConfigManager` accessors return fixed defaults instead of failing:
batch size 100, threading configuration with max_workers 4 and
chunk_size 1000, and threading disabled. -/
theorem claim_c10_config_manager_defaults (c : ConfigManager.ManagerConfig) :
    (c.app = none →
      ConfigManager.get_batch_size c = 100
      ∧ ConfigManager.get_threading_config c
          = ⟨some 4, some 1000, some false⟩
      ∧ ConfigManager.is_threading_enabled c = false)
    ∧ (∀ a, c.app = some a → a.batch_size = none →
        ConfigManager.get_batch_size c = 100)
    ∧ (∀ a, c.app = some a → a.threading = none →
        ConfigManager.get_threading_config c = ⟨some 4, some 1000, some false⟩
        ∧ ConfigManager.is_threading_enabled c = false) := by
  refine ⟨fun h => ?_, fun a ha hb => ?_, fun a ha ht => ?_⟩
  · simp [ConfigManager.get_batch_size, ConfigManager.get_threading_config,
      ConfigManager.is_threading_enabled, ConfigManager.default_threading, h]
  · simp [ConfigManager.get_batch_size, ha, hb]
  · simp [ConfigManager.get_threading_config,
      ConfigManager.is_threading_enabled, ConfigManager.default_threading,
      ha, ht]

/-- Witness for C10, at a configuration with no `app` section and at one
whose `app` section has neither `batch_size` nor `threading`. -/
theorem claim_c10_witness :
    (ConfigManager.get_batch_size ⟨none⟩ = 100
      ∧ ConfigManager.get_threading_config ⟨none⟩ = ⟨some 4, some 1000, some false⟩
      ∧ ConfigManager.is_threading_enabled ⟨none⟩ = false)
    ∧ ConfigManager.get_batch_size ⟨some ⟨none, none⟩⟩ = 100
    ∧ ConfigManager.get_threading_config ⟨some ⟨none, none⟩⟩
        = ⟨some 4, some 1000, some false⟩
    ∧ ConfigManager.is_threading_enabled ⟨some ⟨none, none⟩⟩ = false :=
  ⟨(claim_c10_config_manager_defaults ⟨none⟩).1 rfl,
   (claim_c10_config_manager_defaults ⟨some ⟨none, none⟩⟩).2.1 ⟨none, none⟩ rfl rfl,
   ((claim_c10_config_manager_defaults ⟨some ⟨none, none⟩⟩).2.2 ⟨none, none⟩ rfl rfl).1,
   ((claim_c10_config_manager_defaults ⟨some ⟨none, none⟩⟩).2.2 ⟨none, none⟩ rfl rfl).2⟩
